import Mathlib

/-!
Verification of the student record store exercised by
`src/lib/sqlalchemy_sandbox.py`.

The script declares one mapped class `Student`, opens a session on an
in-memory SQLite engine, and runs a fixed sequence of inserts, queries,
updates and deletes.  We embed the record store shallowly: wall-clock time
is a natural-number tick, a `datetime` value is a tick, the session is a
pair of a committed row list and a pending (buffered, not yet flushed)
row list together with the monotonic id counter, and each library call the
script makes becomes a pure function on that state.
-/

/-- Wall-clock instants (`datetime` values) are modelled as natural-number
ticks. -/
abbrev Time := Nat

/-- A row of the `students` table (`class Student(Base)` in the script):
`id` integer primary key, `name` string, `email` string, `grade` integer,
`birthday` datetime, `enrolled_date` datetime. -/
structure Student where
  id : Nat
  name : String
  email : String
  grade : Int
  birthday : Time
  enrolled_date : Time
deriving DecidableEq

/-- The caller-supplied fields of a `Student(...)` constructor call in the
script: everything except `id` (assigned by the store) and `enrolled_date`
(filled from the column default). -/
structure StudentData where
  name : String
  email : String
  grade : Int
  birthday : Time
deriving DecidableEq

/-- Session plus engine state.  `committed` are the flushed rows, in
insertion order; `pending` are rows buffered by the session and not yet
visible to queries; `nextId` is the monotonic primary-key counter;
`defaultEnrolled` is the single `datetime.now()` value that Python computed
when the class body ran (`enrolled_date = Column(DateTime(), default=datetime.now())`
evaluates its argument once, at class definition, not per row). -/
structure DB where
  committed : List Student
  pending : List Student
  nextId : Nat
  defaultEnrolled : Time
deriving DecidableEq

/-- A fresh store whose `Student` class was defined at tick `tdef`. -/
def emptyDB (tdef : Time) : DB :=
  { committed := [], pending := [], nextId := 1, defaultEnrolled := tdef }

/-- The row built for a `Student(...)` value inserted at tick `tnow` with no
explicit `enrolled_date`: the id is drawn from the counter, and
`enrolled_date` is the constant computed at class definition — the tick
`tnow` at which the record is actually created is never consulted, mirroring
`default=datetime.now()` being evaluated once on line 25 of the script. -/
def mkRow (db : DB) (_tnow : Time) (d : StudentData) : Student :=
  { id := db.nextId, name := d.name, email := d.email, grade := d.grade,
    birthday := d.birthday, enrolled_date := db.defaultEnrolled }

/-- `session.add` / one step of `session.bulk_save_objects`: buffer the row
and advance the id counter.  `tnow` is the tick at which the record is
created. -/
def insertOne (db : DB) (tnow : Time) (d : StudentData) : DB :=
  { db with pending := db.pending ++ [mkRow db tnow d], nextId := db.nextId + 1 }

/-- `session.bulk_save_objects(objects)` (script line 84): buffer a list of
rows in order. -/
def bulkSaveObjects (db : DB) (tnow : Time) (ds : List StudentData) : DB :=
  ds.foldl (fun acc d => insertOne acc tnow d) db

/-- `session.commit()`: flush every buffered row, atomically, in order. -/
def commitDB (db : DB) : DB :=
  { db with committed := db.committed ++ db.pending, pending := [] }

/-- `session.query(Student).all()` (script line 91): every committed row, in
insertion order. -/
def queryAll (db : DB) : List Student :=
  db.committed

/-- `session.query(Student.name).all()` (script line 96): project one
column. -/
def projectNames (db : DB) : List String :=
  db.committed.map Student.name

/-- `session.query(Student).filter(p).all()` (script line 127): the committed
rows matching the predicate, in insertion order. -/
def filterQ (p : Student → Bool) (db : DB) : List Student :=
  db.committed.filter p

/-- `query.first()` (script lines 106, 111, 151, 164): the first row of the
result, or `none` when the result is empty. -/
def queryFirst (p : Student → Bool) (db : DB) : Option Student :=
  (db.committed.filter p).head?

/-- `session.query(func.count(Student.id)).first()` (script line 118): the
number of committed rows. -/
def countStudents (db : DB) : Nat :=
  db.committed.length

/-- SQL `SUM` over a column: `NULL` (here `none`) on the empty bag, otherwise
the arithmetic sum. -/
def sqlSum (vals : List Int) : Option Int :=
  vals.foldl
    (fun acc v =>
      match acc with
      | none => some v
      | some s => some (s + v))
    none

/-- `session.query(func.sum(Student.grade)).first()` (script line 121). -/
def sumGrade (db : DB) : Option Int :=
  sqlSum (db.committed.map Student.grade)

/-- The grade updates of the script — the per-object loop
`for student in session.query(Student): student.grade += 1` followed by
`session.commit()` (lines 134-136), and the bulk
`session.query(Student).update({Student.grade: Student.grade + 1})`
(line 141) — both replace every committed row's grade by a function of the
old grade, leaving every other column untouched. -/
def updateAllGrades (f : Int → Int) (db : DB) : DB :=
  { db with committed := db.committed.map (fun s => { s with grade := f s.grade }) }

/-- `query.delete()` on a filtered query (script line 163): remove every
committed row matching the predicate, returning the new state and the number
of rows deleted; matching nothing deletes nothing and raises nothing. -/
def queryDelete (p : Student → Bool) (db : DB) : DB × Nat :=
  ({ db with committed := db.committed.filter (fun s => !(p s)) },
   (db.committed.filter p).length)

/-- The error raised by `session.delete(None)`: SQLAlchemy's
`UnmappedInstanceError` (the script's own comment at line 158 records that
this section "returned an error"). -/
inductive DeleteError where
  | unmappedInstance
deriving DecidableEq

/-- `session.delete(obj)` followed by `session.commit()` (script lines
152-153), where `obj` is the possibly-absent result of `query.first()`:
on `None` the call raises `UnmappedInstanceError`; on a row it removes the
row with that identity. -/
def sessionDelete (db : DB) (obj : Option Student) : Except DeleteError DB :=
  match obj with
  | none => Except.error DeleteError.unmappedInstance
  | some s =>
      Except.ok { db with committed := db.committed.filter (fun t => !(t.id == s.id)) }

/-- `student1` of the script: Alice, grade 9, born 1996-08-27. -/
def aliceData : StudentData :=
  { name := "Alice", email := "alice@school.com", grade := 9, birthday := 19960827 }

/-- `student2` of the script: Alan Turing, grade 11, born 1912-06-23. -/
def alanData : StudentData :=
  { name := "Alan Turing", email := "alan.turing@sherborne.edu", grade := 11,
    birthday := 19120623 }

/-- `student3` of the script: Mark Tylor, grade 7, born 2000-10-23 —
constructed but never passed to `bulk_save_objects` or `add`. -/
def markData : StudentData :=
  { name := "Mark Tylor", email := "mark.tylor@moringaschool.com", grade := 7,
    birthday := 20001023 }

/-- The filter used by both delete sections of the script:
`Student.name == "Mark Tylor"`. -/
def markQuery : Student → Bool :=
  fun s => s.name == "Mark Tylor"

/-- Script state: the fresh in-memory store (class defined at tick 0). -/
def scriptDB0 : DB := emptyDB 0

/-- Script state after `session.bulk_save_objects([student1, student2])`
(line 84) — note `student3` is not in the list. -/
def scriptDB1 : DB := bulkSaveObjects scriptDB0 1 [aliceData, alanData]

/-- Script state after the `session.commit()` on line 85. -/
def scriptDB2 : DB := commitDB scriptDB1

/-- Script state after the per-object update loop plus commit
(lines 134-136): every grade incremented once. -/
def scriptDB3 : DB := updateAllGrades (fun g => g + 1) scriptDB2

/-- Script state after `session.query(Student).update({Student.grade:
Student.grade + 1})` (line 141): every grade incremented a second time. -/
def scriptDB4 : DB := updateAllGrades (fun g => g + 1) scriptDB3

/-- The spec's concrete scenario uses the short name Alan; grade 11 as in the
script. -/
def alanScn : StudentData :=
  { name := "Alan", email := "alan.turing@sherborne.edu", grade := 11,
    birthday := 19120623 }

/-- Scenario state: insert Alice(grade 9) and Alan(grade 11) into an empty
store and commit. -/
def scnDB0 : DB := commitDB (bulkSaveObjects (emptyDB 0) 1 [aliceData, alanScn])

/-- Scenario state after incrementing every grade by 1. -/
def scnDB1 : DB := updateAllGrades (fun g => g + 1) scnDB0

/-- Scenario state after deleting by the predicate `name == "Alan"`. -/
def scnDB2 : DB := (queryDelete (fun s => s.name == "Alan") scnDB1).1

/-- C2: the column default `default=datetime.now()` is evaluated once, when
the class body runs (tick 0 here); two records created at the distinct ticks
5 and 9 both receive `enrolled_date = 0`, not their own creation times. -/
theorem enrolled_date_ignores_creation_time :
  ((insertOne (insertOne (emptyDB 0) 5 aliceData) 9 alanData).pending.map
      Student.enrolled_date) = [0, 0] ∧
  (5 : Time) ≠ 9 ∧ (0 : Time) ≠ 5 ∧ (0 : Time) ≠ 9 := by
  decide

/-- C3: the scenario sequence — from an empty store, insert Alice(grade 9)
and Alan(grade 11) and commit; then `count()` is 2, `sum(grade)` is 20;
after incrementing every grade by 1 the grades are 10 and 12; after deleting
by the predicate `name == "Alan"`, `count()` is 1 and `all()` is exactly
[Alice with grade 10]. -/
theorem scenario_insert_count_sum_update_delete :
  countStudents scnDB0 = 2 ∧
  sumGrade scnDB0 = some 20 ∧
  (queryAll scnDB1).map Student.grade = [10, 12] ∧
  countStudents scnDB2 = 1 ∧
  queryAll scnDB2 =
    [{ id := 1, name := "Alice", email := "alice@school.com", grade := 10,
       birthday := 19960827, enrolled_date := 0 }] := by
  decide

/-- C6: only `student1` and `student2` are ever saved; from the first commit
on, the committed store holds exactly the two rows Alice and Alan Turing,
every query filtering on `name == "Mark Tylor"` is empty (so `first()` is
`none`), the identity-delete section removes nothing (it is handed `None`
and raises), and the predicate-delete section deletes zero rows and leaves
the store unchanged. -/
theorem script_store_holds_exactly_two_records :
  (queryAll scriptDB2).map Student.name = ["Alice", "Alan Turing"] ∧
  countStudents scriptDB2 = 2 ∧
  countStudents scriptDB3 = 2 ∧
  countStudents scriptDB4 = 2 ∧
  filterQ markQuery scriptDB2 = [] ∧
  filterQ markQuery scriptDB3 = [] ∧
  filterQ markQuery scriptDB4 = [] ∧
  queryFirst markQuery scriptDB4 = none ∧
  sessionDelete scriptDB4 (queryFirst markQuery scriptDB4) =
    Except.error DeleteError.unmappedInstance ∧
  (queryDelete markQuery scriptDB4).2 = 0 ∧
  (queryDelete markQuery scriptDB4).1 = scriptDB4 ∧
  countStudents (queryDelete markQuery scriptDB4).1 = 2 := by
  refine ⟨by decide, by decide, by decide, by decide, by decide, by decide,
    by decide, by decide, rfl, by decide, by decide, by decide⟩

/-- C7: the script increments every grade twice — once in the per-object
loop, once in the bulk `update()` — so after the update section each grade
is the inserted grade plus 2 (Alice 9 to 11, Alan Turing 11 to 13); in
general two successive increments add 2 to every committed grade. -/
theorem script_grades_incremented_twice :
  (queryAll scriptDB4).map (fun s => (s.name, s.grade)) =
    [("Alice", 11), ("Alan Turing", 13)] ∧
  (queryAll scriptDB4).map Student.grade =
    [aliceData.grade + 2, alanData.grade + 2] ∧
  ∀ db : DB,
    (updateAllGrades (fun g => g + 1) (updateAllGrades (fun g => g + 1) db)).committed.map
        Student.grade =
      db.committed.map (fun s => s.grade + 2) := by
  refine ⟨by decide, by decide, fun db => ?_⟩
  simp [updateAllGrades, List.map_map]
  exact fun a _ => by ring

/-- C1 counterexample: in the script, the identity-delete of a record that
matches no committed row is not an error-free no-op: `query.first()` on the
never-inserted "Mark Tylor" yields the absence indicator, and
`session.delete` applied to it raises `UnmappedInstanceError` (as the
script's own comment records). -/
theorem delete_of_missing_identity_raises :
  queryFirst markQuery scriptDB4 = none ∧
  sessionDelete scriptDB4 (queryFirst markQuery scriptDB4) =
    Except.error DeleteError.unmappedInstance := by
  exact ⟨by decide, rfl⟩

/-- C1 (amended): deleting by a predicate that matches no committed record is
a no-op — the store is unchanged, zero rows are reported deleted and no error
is raised — while the identity-delete form applied to the absence indicator
(the `None` that `first()` returns when nothing matches) raises
`UnmappedInstanceError` instead of being a silent no-op. -/
theorem delete_nonmatching_predicate_noop (db : DB) (p : Student → Bool)
    (h : ∀ s ∈ db.committed, p s = false) :
  (queryDelete p db).1 = db ∧ (queryDelete p db).2 = 0 ∧
  sessionDelete db none = Except.error DeleteError.unmappedInstance := by
  refine ⟨?_, ?_, rfl⟩
  · show ({ db with committed := db.committed.filter (fun s => !(p s)) } : DB) = db
    have hf : db.committed.filter (fun s => !(p s)) = db.committed := by
      apply List.filter_eq_self.mpr
      intro a ha
      simp [h a ha]
    rw [hf]
  · show (db.committed.filter p).length = 0
    have hf : db.committed.filter p = [] := by
      apply List.filter_eq_nil_iff.mpr
      intro a ha
      simp [h a ha]
    rw [hf]
    rfl

/-- Witness for `delete_nonmatching_predicate_noop` at the script's committed
store and the "Mark Tylor" predicate. -/
theorem delete_nonmatching_predicate_noop_witness :
  (∀ s ∈ scriptDB2.committed, markQuery s = false) ∧
  ((queryDelete markQuery scriptDB2).1 = scriptDB2 ∧
   (queryDelete markQuery scriptDB2).2 = 0 ∧
   sessionDelete scriptDB2 none = Except.error DeleteError.unmappedInstance) :=
  ⟨by decide, delete_nonmatching_predicate_noop scriptDB2 markQuery (by decide)⟩

/-- C4: a buffered insert is invisible to every read — `all()`, `count()`,
`filter(...)`, `first()`, `sum(grade)` — until the commit; it stays invisible
across further buffered inserts; and the commit flushes the whole buffer
atomically, appending it to the committed rows and emptying it. -/
theorem insert_buffered_until_commit (db : DB) (t : Time) (d : StudentData) :
  queryAll (insertOne db t d) = queryAll db ∧
  countStudents (insertOne db t d) = countStudents db ∧
  (∀ p, filterQ p (insertOne db t d) = filterQ p db) ∧
  (∀ p, queryFirst p (insertOne db t d) = queryFirst p db) ∧
  sumGrade (insertOne db t d) = sumGrade db ∧
  (∀ t2 d2, queryAll (insertOne (insertOne db t d) t2 d2) = queryAll db) ∧
  (insertOne db t d).pending = db.pending ++ [mkRow db t d] ∧
  (commitDB (insertOne db t d)).committed = db.committed ++ (db.pending ++ [mkRow db t d]) ∧
  (commitDB (insertOne db t d)).pending = [] ∧
  (∀ db2 : DB, (commitDB db2).committed = db2.committed ++ db2.pending ∧
    (commitDB db2).pending = []) :=
  ⟨rfl, rfl, fun _ => rfl, fun _ => rfl, rfl, fun _ _ => rfl, rfl, rfl, rfl,
   fun _ => ⟨rfl, rfl⟩⟩

/-- Folding the SQL `SUM` accumulator from a non-`NULL` start adds up the
remaining values. -/
theorem sqlSum_foldl_some (xs : List Int) (s : Int) :
    xs.foldl
      (fun acc v =>
        match acc with
        | none => some v
        | some a => some (a + v))
      (some s) = some (s + xs.sum) := by
  induction xs generalizing s with
  | nil => simp
  | cons x xs ih => simp [ih, add_assoc]

/-- C5: `sum(grade)` is the arithmetic sum of the grades of all committed
records, and on an empty store it is the one fixed absence value `none`
(SQL `SUM` over an empty bag is `NULL`), never an error. -/
theorem sum_grade_spec (db : DB) :
  sumGrade db =
    if db.committed.isEmpty then none
    else some ((db.committed.map Student.grade).sum) := by
  cases h : db.committed with
  | nil => simp [sumGrade, sqlSum, h]
  | cons x xs =>
      simp only [sumGrade, sqlSum, h, List.map_cons, List.foldl_cons,
        List.isEmpty_cons, List.sum_cons, Bool.false_eq_true, if_false]
      exact sqlSum_foldl_some (xs.map Student.grade) x.grade

/-- C9: `first()` on a filtered query whose predicate matches no committed
record returns the absence indicator `none` (its result type has no error
case). -/
theorem first_on_unmatched_filter_is_none (db : DB) (p : Student → Bool)
    (h : ∀ s ∈ db.committed, p s = false) :
  queryFirst p db = none := by
  unfold queryFirst
  have hf : db.committed.filter p = [] := by
    apply List.filter_eq_nil_iff.mpr
    intro a ha
    simp [h a ha]
  rw [hf]
  rfl

/-- Witness for `first_on_unmatched_filter_is_none` at the script's final
store and the "Mark Tylor" predicate. -/
theorem first_on_unmatched_filter_is_none_witness :
  (∀ s ∈ scriptDB4.committed, markQuery s = false) ∧
  queryFirst markQuery scriptDB4 = none :=
  ⟨by decide, first_on_unmatched_filter_is_none scriptDB4 markQuery (by decide)⟩

/-- Comparison used by ascending `order_by(column)` (script line 100),
pulled back along the column key. -/
def keyLE {K : Type} [LinearOrder K] (key : Student → K) : Student → Student → Prop :=
  fun a b => key a ≤ key b

instance {K : Type} [LinearOrder K] (key : Student → K) : DecidableRel (keyLE key) :=
  fun a b => inferInstanceAs (Decidable (key a ≤ key b))

instance {K : Type} [LinearOrder K] (key : Student → K) : IsTotal Student (keyLE key) :=
  ⟨fun a b => le_total (key a) (key b)⟩

instance {K : Type} [LinearOrder K] (key : Student → K) : IsTrans Student (keyLE key) :=
  ⟨fun _ _ _ hab hbc => le_trans hab hbc⟩

/-- Comparison used by descending `order_by(desc(column))` (script line 102). -/
def keyGE {K : Type} [LinearOrder K] (key : Student → K) : Student → Student → Prop :=
  fun a b => key b ≤ key a

instance {K : Type} [LinearOrder K] (key : Student → K) : DecidableRel (keyGE key) :=
  fun a b => inferInstanceAs (Decidable (key b ≤ key a))

instance {K : Type} [LinearOrder K] (key : Student → K) : IsTotal Student (keyGE key) :=
  ⟨fun a b => le_total (key b) (key a)⟩

instance {K : Type} [LinearOrder K] (key : Student → K) : IsTrans Student (keyGE key) :=
  ⟨fun _ _ _ hab hbc => le_trans hbc hab⟩

/-- `session.query(...).order_by(column).all()`: the committed rows sorted
ascending by the column, ties kept in insertion order (stable sort). -/
def orderByAsc {K : Type} [LinearOrder K] (key : Student → K)
    (l : List Student) : List Student :=
  l.insertionSort (keyLE key)

/-- `session.query(...).order_by(desc(column)).all()`: the committed rows
sorted descending by the column, ties kept in insertion order. -/
def orderByDesc {K : Type} [LinearOrder K] (key : Student → K)
    (l : List Student) : List Student :=
  l.insertionSort (keyGE key)

/-- Inserting into a list keeps the rows sharing one key value in place:
the ascending ordered-insert either prepends the new row to the rows at its
key value or leaves them untouched. -/
theorem filter_orderedInsert_keyLE {K : Type} [LinearOrder K] (key : Student → K)
    (x : Student) (c : K) (l : List Student) :
    (List.orderedInsert (keyLE key) x l).filter (fun s => decide (key s = c)) =
      if key x = c then x :: l.filter (fun s => decide (key s = c))
      else l.filter (fun s => decide (key s = c)) := by
  induction l with
  | nil =>
      by_cases hx : key x = c <;> simp [List.orderedInsert, hx]
  | cons y l ih =>
      by_cases hxy : keyLE key x y
      · rw [List.orderedInsert_of_le (keyLE key) l hxy]
        by_cases hx : key x = c <;> simp [List.filter_cons, hx]
      · have hOI : List.orderedInsert (keyLE key) x (y :: l) =
            y :: List.orderedInsert (keyLE key) x l := by
          simp [List.orderedInsert, hxy]
        have hyx : key y < key x := lt_of_not_le hxy
        rw [hOI]
        by_cases hx : key x = c
        · have hy : ¬(key y = c) := by
            rw [← hx]
            exact ne_of_lt hyx
          simp [List.filter_cons, hx, hy, ih]
        · simp [List.filter_cons, hx, ih]

/-- Descending counterpart of `filter_orderedInsert_keyLE`. -/
theorem filter_orderedInsert_keyGE {K : Type} [LinearOrder K] (key : Student → K)
    (x : Student) (c : K) (l : List Student) :
    (List.orderedInsert (keyGE key) x l).filter (fun s => decide (key s = c)) =
      if key x = c then x :: l.filter (fun s => decide (key s = c))
      else l.filter (fun s => decide (key s = c)) := by
  induction l with
  | nil =>
      by_cases hx : key x = c <;> simp [List.orderedInsert, hx]
  | cons y l ih =>
      by_cases hxy : keyGE key x y
      · rw [List.orderedInsert_of_le (keyGE key) l hxy]
        by_cases hx : key x = c <;> simp [List.filter_cons, hx]
      · have hOI : List.orderedInsert (keyGE key) x (y :: l) =
            y :: List.orderedInsert (keyGE key) x l := by
          simp [List.orderedInsert, hxy]
        have hyx : key x < key y := lt_of_not_le hxy
        rw [hOI]
        by_cases hx : key x = c
        · have hy : ¬(key y = c) := by
            rw [← hx]
            exact ne_of_gt hyx
          simp [List.filter_cons, hx, hy, ih]
        · simp [List.filter_cons, hx, ih]

/-- The ascending sort is stable: the subsequence of rows sharing any one
key value is exactly the insertion-order subsequence. -/
theorem orderByAsc_stable {K : Type} [LinearOrder K] (key : Student → K)
    (l : List Student) (c : K) :
    (orderByAsc key l).filter (fun s => decide (key s = c)) =
      l.filter (fun s => decide (key s = c)) := by
  induction l with
  | nil => rfl
  | cons x l ih =>
      show (List.orderedInsert (keyLE key) x
        (List.insertionSort (keyLE key) l)).filter _ = _
      rw [filter_orderedInsert_keyLE]
      have ih2 : (List.insertionSort (keyLE key) l).filter (fun s => decide (key s = c)) =
          l.filter (fun s => decide (key s = c)) := ih
      by_cases hx : key x = c <;> simp [List.filter_cons, hx, ih2]

/-- The descending sort is stable in the same sense. -/
theorem orderByDesc_stable {K : Type} [LinearOrder K] (key : Student → K)
    (l : List Student) (c : K) :
    (orderByDesc key l).filter (fun s => decide (key s = c)) =
      l.filter (fun s => decide (key s = c)) := by
  induction l with
  | nil => rfl
  | cons x l ih =>
      show (List.orderedInsert (keyGE key) x
        (List.insertionSort (keyGE key) l)).filter _ = _
      rw [filter_orderedInsert_keyGE]
      have ih2 : (List.insertionSort (keyGE key) l).filter (fun s => decide (key s = c)) =
          l.filter (fun s => decide (key s = c)) := ih
      by_cases hx : key x = c <;> simp [List.filter_cons, hx, ih2]

/-- The key column read off the descending sort is the reverse of the key
column read off the ascending sort. -/
theorem orderByDesc_keys_eq_reverse {K : Type} [LinearOrder K] (key : Student → K)
    (l : List Student) :
    (orderByDesc key l).map key = ((orderByAsc key l).map key).reverse := by
  haveI : IsAntisymm K (fun a b : K => b ≤ a) :=
    ⟨fun _ _ h1 h2 => le_antisymm h2 h1⟩
  have hperm : List.Perm ((orderByDesc key l).map key)
      (((orderByAsc key l).map key).reverse) :=
    ((List.perm_insertionSort (keyGE key) l).map key).trans
      ((((List.perm_insertionSort (keyLE key) l).map key).symm).trans
        ((List.reverse_perm ((orderByAsc key l).map key)).symm))
  have hs1 : List.Sorted (fun a b : K => b ≤ a) ((orderByDesc key l).map key) :=
    List.pairwise_map.mpr (List.sorted_insertionSort (keyGE key) l)
  have hs2 : List.Sorted (fun a b : K => b ≤ a) (((orderByAsc key l).map key).reverse) :=
    List.pairwise_reverse.mpr
      (List.pairwise_map.mpr (List.sorted_insertionSort (keyLE key) l))
  exact List.eq_of_perm_of_sorted hperm hs1 hs2

/-- C8: for any committed store state and any field, the descending ordering
is the exact reverse of the ascending ordering up to the arrangement of rows
that tie on that field (the key columns read off the two results are exact
reverses, and the row sequences are permutations of one another), and both
orderings are stable — the rows sharing any one key value stay in insertion
order. -/
theorem orderBy_reverse_and_stable {K : Type} [LinearOrder K] (key : Student → K)
    (db : DB) :
  (orderByDesc key (queryAll db)).map key =
    ((orderByAsc key (queryAll db)).map key).reverse ∧
  List.Perm (orderByDesc key (queryAll db)) ((orderByAsc key (queryAll db)).reverse) ∧
  (∀ c : K, (orderByAsc key (queryAll db)).filter (fun s => decide (key s = c)) =
    (queryAll db).filter (fun s => decide (key s = c))) ∧
  (∀ c : K, (orderByDesc key (queryAll db)).filter (fun s => decide (key s = c)) =
    (queryAll db).filter (fun s => decide (key s = c))) := by
  refine ⟨orderByDesc_keys_eq_reverse key _, ?_, fun c => orderByAsc_stable key _ c,
    fun c => orderByDesc_stable key _ c⟩
  exact (List.perm_insertionSort (keyGE key) _).trans
    (((List.perm_insertionSort (keyLE key) _).symm).trans
      ((List.reverse_perm (orderByAsc key (queryAll db))).symm))

/-- The store operations the script performs, as one step type: buffer an
insert, commit, rewrite every grade, delete by predicate, delete by
(possibly absent) object reference. -/
inductive Op where
  | ins (tnow : Time) (d : StudentData)
  | commit
  | updateGrades (f : Int → Int)
  | deleteWhere (p : Student → Bool)
  | deleteObj (obj : Option Student)

/-- Run one operation; a raising `session.delete(None)` leaves the store
as it was. -/
def runOp (db : DB) : Op → DB
  | Op.ins t d => insertOne db t d
  | Op.commit => commitDB db
  | Op.updateGrades f => updateAllGrades f db
  | Op.deleteWhere p => (queryDelete p db).1
  | Op.deleteObj o =>
      match sessionDelete db o with
      | Except.ok db2 => db2
      | Except.error _ => db

/-- Run a sequence of operations, left to right. -/
def runOps (db : DB) (ops : List Op) : DB :=
  ops.foldl runOp db

/-- Every row the store knows about: the committed rows then the buffered
ones. -/
def allRecords (db : DB) : List Student :=
  db.committed ++ db.pending

/-- The id column across every row the store knows about. -/
def idsOf (db : DB) : List Nat :=
  (allRecords db).map Student.id

/-- The id invariant: no two rows share an id, and every id is below the
counter. -/
def IdInv (db : DB) : Prop :=
  (idsOf db).Nodup ∧ ∀ i ∈ idsOf db, i < db.nextId

theorem idsOf_insertOne (db : DB) (t : Time) (d : StudentData) :
    idsOf (insertOne db t d) = idsOf db ++ [db.nextId] := by
  simp [idsOf, allRecords, insertOne, mkRow]

theorem idsOf_commitDB (db : DB) : idsOf (commitDB db) = idsOf db := by
  simp [idsOf, allRecords, commitDB]

theorem idsOf_updateAllGrades (f : Int → Int) (db : DB) :
    idsOf (updateAllGrades f db) = idsOf db := by
  simp [idsOf, allRecords, updateAllGrades, List.map_map]

theorem idsOf_deleteWhere_sublist (p : Student → Bool) (db : DB) :
    (idsOf (queryDelete p db).1).Sublist (idsOf db) := by
  simp only [idsOf, allRecords, queryDelete]
  exact ((db.committed.filter_sublist).append_right _).map _

theorem idsOf_deleteObj_sublist (db : DB) (o : Option Student) :
    (idsOf (runOp db (Op.deleteObj o))).Sublist (idsOf db) := by
  cases o with
  | none => exact List.Sublist.refl _
  | some s =>
      simp only [runOp, sessionDelete, idsOf, allRecords]
      exact ((db.committed.filter_sublist).append_right _).map _

theorem nextId_runOp_le (db : DB) (op : Op) : db.nextId ≤ (runOp db op).nextId := by
  cases op with
  | ins t d => exact Nat.le_succ _
  | commit => exact le_refl _
  | updateGrades f => exact le_refl _
  | deleteWhere p => exact le_refl _
  | deleteObj o => cases o <;> simp [runOp, sessionDelete]

theorem nextId_runOp_eq (db : DB) (op : Op) :
    (runOp db op).nextId = db.nextId ∨ (runOp db op).nextId = db.nextId + 1 := by
  cases op with
  | ins t d => exact Or.inr rfl
  | commit => exact Or.inl rfl
  | updateGrades f => exact Or.inl rfl
  | deleteWhere p => exact Or.inl rfl
  | deleteObj o => cases o <;> simp [runOp, sessionDelete]

theorem IdInv_runOp (db : DB) (op : Op) (h : IdInv db) : IdInv (runOp db op) := by
  obtain ⟨hnd, hlt⟩ := h
  cases op with
  | ins t d =>
      constructor
      · rw [show runOp db (Op.ins t d) = insertOne db t d from rfl, idsOf_insertOne]
        rw [List.nodup_append]
        refine ⟨hnd, List.nodup_singleton _, ?_⟩
        intro a ha hb
        have := hlt a ha
        simp at hb
        omega
      · intro i hi
        rw [show runOp db (Op.ins t d) = insertOne db t d from rfl, idsOf_insertOne] at hi
        rcases List.mem_append.mp hi with hmem | hmem
        · have := hlt i hmem
          simp [runOp, insertOne]
          omega
        · simp at hmem
          simp [runOp, insertOne, hmem]
  | commit =>
      refine ⟨by rwa [show runOp db Op.commit = commitDB db from rfl, idsOf_commitDB], ?_⟩
      intro i hi
      rw [show runOp db Op.commit = commitDB db from rfl, idsOf_commitDB] at hi
      exact hlt i hi
  | updateGrades f =>
      refine ⟨by rwa [show runOp db (Op.updateGrades f) = updateAllGrades f db from rfl,
        idsOf_updateAllGrades], ?_⟩
      intro i hi
      rw [show runOp db (Op.updateGrades f) = updateAllGrades f db from rfl,
        idsOf_updateAllGrades] at hi
      exact hlt i hi
  | deleteWhere p =>
      refine ⟨hnd.sublist (idsOf_deleteWhere_sublist p db), ?_⟩
      intro i hi
      exact hlt i ((idsOf_deleteWhere_sublist p db).subset hi)
  | deleteObj o =>
      refine ⟨hnd.sublist (idsOf_deleteObj_sublist db o), ?_⟩
      intro i hi
      have hle := hlt i ((idsOf_deleteObj_sublist db o).subset hi)
      have := nextId_runOp_le db (Op.deleteObj o)
      omega

theorem IdInv_runOps (db : DB) (ops : List Op) (h : IdInv db) : IdInv (runOps db ops) := by
  induction ops generalizing db with
  | nil => exact h
  | cons op ops ih => exact ih (runOp db op) (IdInv_runOp db op h)

theorem nextId_runOps_le (db : DB) (ops : List Op) :
    db.nextId ≤ (runOps db ops).nextId := by
  induction ops generalizing db with
  | nil => exact le_refl _
  | cons op ops ih =>
      exact le_trans (nextId_runOp_le db op) (ih (runOp db op))

/-- From the id invariant: two rows of the store carrying the same id are
the same row. -/
theorem id_injective_of_IdInv (db : DB) (h : IdInv db) :
    ∀ s ∈ allRecords db, ∀ u ∈ allRecords db, s.id = u.id → s = u := by
  intro s hs u hu he
  exact List.inj_on_of_nodup_map h.1 hs hu he

/-- C10: along any operation sequence the store keeps its id invariant — all
ids pairwise distinct (so two distinct rows never share an id) — the id
counter never decreases, a record inserted next receives exactly the counter
value, strictly larger than every id already present; and no operation
renumbers a surviving row: grade updates keep the id column unchanged, and
both delete forms only remove rows. -/
theorem student_id_unique_monotonic_immutable (db : DB) (ops : List Op)
    (h : IdInv db) :
  IdInv (runOps db ops) ∧
  db.nextId ≤ (runOps db ops).nextId ∧
  (∀ s ∈ allRecords (runOps db ops), ∀ u ∈ allRecords (runOps db ops),
      s.id = u.id → s = u) ∧
  (∀ t d, (mkRow (runOps db ops) t d).id = (runOps db ops).nextId) ∧
  (∀ i ∈ idsOf (runOps db ops), ∀ t d, i < (mkRow (runOps db ops) t d).id) ∧
  (∀ f, (updateAllGrades f (runOps db ops)).committed.map Student.id =
      (runOps db ops).committed.map Student.id) ∧
  (∀ p, ((queryDelete p (runOps db ops)).1.committed).Sublist
      (runOps db ops).committed) ∧
  (∀ o, ((runOp (runOps db ops) (Op.deleteObj o)).committed).Sublist
      (runOps db ops).committed) := by
  have hInv := IdInv_runOps db ops h
  refine ⟨hInv, nextId_runOps_le db ops, id_injective_of_IdInv _ hInv,
    fun t d => rfl, ?_, ?_, ?_, ?_⟩
  · intro i hi t d
    exact hInv.2 i hi
  · intro f
    simp [updateAllGrades, List.map_map]
  · intro p
    exact (runOps db ops).committed.filter_sublist
  · intro o
    cases o with
    | none => exact List.Sublist.refl _
    | some s => exact (runOps db ops).committed.filter_sublist

/-- The id invariant holds of the fresh store. -/
theorem IdInv_emptyDB : IdInv (emptyDB 0) := by
  constructor
  · simp [idsOf, allRecords, emptyDB]
  · intro i hi
    simp [idsOf, allRecords, emptyDB] at hi

/-- The operation sequence of the script, as `Op` steps. -/
def wOps : List Op :=
  [Op.ins 1 aliceData, Op.ins 1 alanData, Op.commit,
   Op.updateGrades (fun g => g + 1), Op.updateGrades (fun g => g + 1),
   Op.deleteObj none, Op.deleteWhere markQuery]

/-- Witness for `student_id_unique_monotonic_immutable` on the fresh store
and the script's operation sequence. -/
theorem student_id_unique_monotonic_immutable_witness :
  IdInv (emptyDB 0) ∧
  (IdInv (runOps (emptyDB 0) wOps) ∧
   (emptyDB 0).nextId ≤ (runOps (emptyDB 0) wOps).nextId ∧
   (∀ s ∈ allRecords (runOps (emptyDB 0) wOps),
      ∀ u ∈ allRecords (runOps (emptyDB 0) wOps), s.id = u.id → s = u) ∧
   (∀ t d, (mkRow (runOps (emptyDB 0) wOps) t d).id =
      (runOps (emptyDB 0) wOps).nextId) ∧
   (∀ i ∈ idsOf (runOps (emptyDB 0) wOps), ∀ t d,
      i < (mkRow (runOps (emptyDB 0) wOps) t d).id) ∧
   (∀ f, (updateAllGrades f (runOps (emptyDB 0) wOps)).committed.map Student.id =
      (runOps (emptyDB 0) wOps).committed.map Student.id) ∧
   (∀ p, ((queryDelete p (runOps (emptyDB 0) wOps)).1.committed).Sublist
      (runOps (emptyDB 0) wOps).committed) ∧
   (∀ o, ((runOp (runOps (emptyDB 0) wOps) (Op.deleteObj o)).committed).Sublist
      (runOps (emptyDB 0) wOps).committed)) :=
  ⟨IdInv_emptyDB,
   student_id_unique_monotonic_immutable (emptyDB 0) wOps IdInv_emptyDB⟩
